import Mathlib

/-!
Verification of the Case Linking & Adaptive Sample Selection core of the
mail-review repository (src/case_linking.py, src/sampler.py), shallowly
embedded in Lean 4.

Python `datetime.date` values are modelled as year/month/day triples of
naturals; `datetime.datetime` adds a within-day component used only for
ordering.  Python guarantees 1 <= year <= 9999 and calendar-valid
month/day for every constructed date; the predicate `PyDate.valid`
captures that type-level invariant where a proof needs it.
-/

namespace MailReview

/-- A calendar date as held by a Python `datetime.date`. -/
structure PyDate where
  y : Nat
  m : Nat
  d : Nat
deriving DecidableEq, Repr

/-- A Python `datetime.datetime`: its calendar date plus a within-day
component (seconds, microseconds, ... collapsed to one Nat), which is all
the sampler and linker ever use a datetime for (ordering and `.date()`). -/
structure PyDateTime where
  date : PyDate
  tod : Nat
deriving DecidableEq, Repr

/-- `date.__lt__`: lexicographic on (year, month, day). -/
def dateLt (a b : PyDate) : Bool :=
  decide (a.y < b.y) ||
    (decide (a.y = b.y) && (decide (a.m < b.m) || (decide (a.m = b.m) && decide (a.d < b.d))))

/-- `date.__le__`. -/
def dateLe (a b : PyDate) : Bool :=
  dateLt a b || decide (a = b)

/-- `datetime.__lt__`: lexicographic on (date, time-of-day). -/
def dtLt (a b : PyDateTime) : Bool :=
  dateLt a.date b.date || (decide (a.date = b.date) && decide (a.tod < b.tod))

/-- `datetime.__le__`. -/
def dtLe (a b : PyDateTime) : Bool :=
  dtLt a b || decide (a = b)

/-- Gregorian leap-year rule, as in Python's `calendar`/`datetime`. -/
def isLeapYear (y : Nat) : Bool :=
  (y % 4 == 0 && y % 100 != 0) || (y % 400 == 0)

/-- Number of days in a month of the Gregorian calendar. -/
def daysInMonth (y mo : Nat) : Nat :=
  if mo == 2 then (if isLeapYear y then 29 else 28)
  else if mo == 4 || mo == 6 || mo == 9 || mo == 11 then 30
  else 31

/-- The type-level invariant every Python `datetime.date` satisfies. -/
def PyDate.valid (x : PyDate) : Prop :=
  1 ≤ x.y ∧ x.y ≤ 9999 ∧ 1 ≤ x.m ∧ x.m ≤ 12 ∧ 1 ≤ x.d ∧ x.d ≤ daysInMonth x.y x.m

instance (x : PyDate) : Decidable x.valid := by
  unfold PyDate.valid; infer_instance

/-- `date + timedelta(days=1)`. -/
def nextDay (x : PyDate) : PyDate :=
  if x.d < daysInMonth x.y x.m then ⟨x.y, x.m, x.d + 1⟩
  else if x.m < 12 then ⟨x.y, x.m + 1, 1⟩
  else ⟨x.y + 1, 1, 1⟩

/-- `date - timedelta(days=1)`. -/
def prevDay (x : PyDate) : PyDate :=
  if 1 < x.d then ⟨x.y, x.m, x.d - 1⟩
  else if 1 < x.m then ⟨x.y, x.m - 1, daysInMonth x.y (x.m - 1)⟩
  else ⟨x.y - 1, 12, 31⟩

/-- `date + timedelta(days=n)`. -/
def addDays (x : PyDate) : Nat → PyDate
  | 0 => x
  | n + 1 => nextDay (addDays x n)

/-- `date - timedelta(days=n)`. -/
def subDays (x : PyDate) : Nat → PyDate
  | 0 => x
  | n + 1 => prevDay (subDays x n)

/-- The `Interaction` dataclass of src/data_ingestion.py (the `raw_data`
dict, which the linker and sampler never read, is omitted). -/
structure Interaction where
  id : String
  type : String
  timestamp : PyDateTime
  agent : String
  customer_key : Option String
  subject : Option String
  body : Option String
  file_path : Option String
deriving DecidableEq, Repr

/-- The `Case` class of src/case_linking.py. -/
structure Case where
  case_id : String
  interactions : List Interaction
  agent : String
deriving DecidableEq, Repr

/-- `Case.__init__`: empty interaction list, agent sentinel "Unknown". -/
def Case.init (cid : String) : Case :=
  ⟨cid, [], "Unknown"⟩

/-- `Case.add_interaction`: append, then first-non-Unknown-wins agent update. -/
def Case.addInteraction (c : Case) (i : Interaction) : Case :=
  { c with
    interactions := c.interactions ++ [i],
    agent := if c.agent = "Unknown" ∧ i.agent ≠ "Unknown" then i.agent else c.agent }

/-- `max(i.timestamp for i in l)` — `none` on an empty list (Python would
raise there; callers guard).  Python's `max` keeps the earlier element on
ties, i.e. replaces the running maximum only on a strictly greater value. -/
def maxTimestamp : List Interaction → Option PyDateTime
  | [] => none
  | i :: rest =>
      some (rest.foldl (fun mx j => if dtLt mx j.timestamp then j.timestamp else mx) i.timestamp)

/-- `Case.latest_timestamp`. -/
def Case.latestTimestamp (c : Case) : Option PyDateTime :=
  maxTimestamp c.interactions

/-! ### Stable sorting

Python's `list.sort(key=...)` is a stable sort.  Any two stable sorts
agree on every input, so it is embedded as a structurally recursive
stable insertion sort. -/

/-- Insert `a` in front of the first element `b` with `le a b`; on equal
keys the element already present (earlier in the original list) stays
first, which is exactly stability. -/
def insertSorted (le : α → α → Bool) (a : α) : List α → List α
  | [] => [a]
  | b :: bs => if le a b then a :: b :: bs else b :: insertSorted le a bs

/-- Stable insertion sort. -/
def sortStable (le : α → α → Bool) : List α → List α
  | [] => []
  | a :: as => insertSorted le a (sortStable le as)

/-! ### The Case Linker (src/case_linking.py, `CaseLinker.link_cases`) -/

/-- The distinct keys of a list in first-occurrence order, as iterating a
Python `dict`/`defaultdict` built by insertion yields them. -/
def uniqKeys [DecidableEq α] (l : List α) : List α :=
  l.foldl (fun acc k => if k ∈ acc then acc else acc ++ [k]) []

/-- One 0-9 digit as a character. -/
def digitCh (n : Nat) : Char :=
  Char.ofNat (48 + n % 10)

/-- `%02d`: Python zero-pads month and day to two digits (their values
are always below 100). -/
def pad2 (n : Nat) : String :=
  ⟨[digitCh (n / 10), digitCh n]⟩

/-- `%04d`: Python zero-pads the year to four digits (`datetime` years
are always between 1 and 9999). -/
def pad4 (n : Nat) : String :=
  ⟨[digitCh (n / 1000), digitCh (n / 100), digitCh (n / 10), digitCh n]⟩

/-- `date.strftime("%Y%m%d")`. -/
def fmtDate (x : PyDate) : String :=
  pad4 x.y ++ pad2 x.m ++ pad2 x.d

/-- The `case_id` the linker builds: `f"CASE_{agent}_{date:%Y%m%d}"`. -/
def caseIdOf (agent : String) (d : PyDate) : String :=
  "CASE_" ++ agent ++ "_" ++ fmtDate d

/-- Comparison used for `agent_interactions.sort(key=lambda x: x.timestamp)`. -/
def tsLe (a b : Interaction) : Bool :=
  dtLe a.timestamp b.timestamp

/-- The per-(agent, day) case the linker builds: the agent's interactions
in timestamp order, restricted to one calendar day, folded into a fresh
`Case` via `add_interaction`. -/
def buildCase (agent : String) (d : PyDate) (interactions : List Interaction) : Case :=
  ((sortStable tsLe (interactions.filter (fun i => decide (i.agent = agent)))).filter
      (fun i => decide (i.timestamp.date = d))).foldl
    Case.addInteraction (Case.init (caseIdOf agent d))

/-- `CaseLinker.link_cases`: group by agent (dict insertion order), sort
each agent's interactions by timestamp, group those by calendar day
(again insertion order, i.e. order of first appearance in the sorted
list), and build one case per (agent, day). -/
def linkCases (interactions : List Interaction) : List Case :=
  (uniqKeys (interactions.map (fun i => i.agent))).flatMap (fun agent =>
    let ai := sortStable tsLe (interactions.filter (fun i => decide (i.agent = agent)))
    (uniqKeys (ai.map (fun i => i.timestamp.date))).map (fun d => buildCase agent d interactions))

/-! ### The Sampler (src/sampler.py) -/

/-- The per-channel thresholds of `Sampler.__init__`'s gate dictionaries
for `"CALL"`. -/
structure CallGate where
  min_transcript : Nat
  structure_points : Nat
  min_duration : Nat
deriving DecidableEq, Repr

/-- The per-channel thresholds of `Sampler.__init__`'s gate dictionaries
for `"EMAIL"`. -/
structure EmailGate where
  min_chars : Nat
  structure_points : Nat
deriving DecidableEq, Repr

/-- One of the two gate dictionaries of `Sampler.__init__`. -/
structure Gates where
  CALL : CallGate
  EMAIL : EmailGate
deriving DecidableEq, Repr

/-- `self.STRICT_GATES`. -/
def STRICT_GATES : Gates :=
  ⟨⟨600, 1, 120⟩, ⟨350, 2⟩⟩

/-- `self.LOOSE_GATES`. -/
def LOOSE_GATES : Gates :=
  ⟨⟨300, 0, 60⟩, ⟨150, 1⟩⟩

/-! Regular-expression cues of `Sampler.is_eligible`, written out as
executable searches.  `\d` is embedded as the ASCII digits 0-9 and `\s`
as the common whitespace characters (Python's Unicode classes are
wider, but only on characters none of these patterns' neighbours use). -/

/-- Does the text start with the pattern? -/
def startsWithL : List Char → List Char → Bool
  | [], _ => true
  | _ :: _, [] => false
  | p :: ps, c :: cs => p == c && startsWithL ps cs

/-- `re.search` of a literal pattern: does it occur anywhere in the text? -/
def containsSeq (pat : List Char) : List Char → Bool
  | [] => startsWithL pat []
  | c :: cs => startsWithL pat (c :: cs) || containsSeq pat cs

/-- Literal-substring search on strings. -/
def containsStr (pat s : String) : Bool :=
  containsSeq pat.data s.data

/-- `re.search(r"\d+X", s)` for a non-digit character `X`: some digit is
immediately followed by `X` (the run of digits before it is irrelevant). -/
def hasDigitThen (x : Char) : List Char → Bool
  | [] => false
  | [_] => false
  | a :: b :: rest => (a.isDigit && b == x) || hasDigitThen x (b :: rest)

/-- ASCII whitespace as matched by `\s`. -/
def isSpaceCh (c : Char) : Bool :=
  c == ' ' || c == '\t' || c == '\n' || c == '\r' || c == '\x0b' || c == '\x0c' || c == '　'

/-- After `月` and its whitespace, the remaining digits then `日`
(`\d+日` with the first digit already consumed). -/
def digitsThenDay : List Char → Bool
  | [] => false
  | c :: cs => c == '日' || (c.isDigit && digitsThenDay cs)

/-- After a matched `月`: `\s*\d+日`. -/
def afterMonth : List Char → Bool
  | [] => false
  | c :: cs =>
      if isSpaceCh c then afterMonth cs
      else if c.isDigit then digitsThenDay cs
      else false

/-- `re.search(r"月\s*\d+日", s)`. -/
def hasMonthDay : List Char → Bool
  | [] => false
  | c :: cs => (c == '月' && afterMonth cs) || hasMonthDay cs

/-- The two structure-rescue cue counts for a call transcript:
`(確認|承知|左記)` and `(\d+円|日程|期限|手配)`. -/
def callRescuePoints (content : String) : Nat :=
  (if containsStr "確認" content || containsStr "承知" content || containsStr "左記" content
    then 1 else 0) +
  (if hasDigitThen '円' content.data || containsStr "日程" content ||
      containsStr "期限" content || containsStr "手配" content
    then 1 else 0)

/-- The three structure-rescue cue counts for an email body:
`(\d\.|・|■)`, `(\d+円|月\s*\d+日|泊|期限)` and `(お願い|送付|回答)`. -/
def emailRescuePoints (content : String) : Nat :=
  (if hasDigitThen '.' content.data || containsStr "・" content || containsStr "■" content
    then 1 else 0) +
  (if hasDigitThen '円' content.data || hasMonthDay content.data ||
      containsStr "泊" content || containsStr "期限" content
    then 1 else 0) +
  (if containsStr "お願い" content || containsStr "送付" content || containsStr "回答" content
    then 1 else 0)

/-- `any(i.type == "PHONE" for i in case.interactions)`. -/
def hasPhoneB (c : Case) : Bool :=
  c.interactions.any (fun i => i.type == "PHONE")

/-- `"".join([i.body or "" for i in case.interactions if i.type == t])`
(`i.body or ""` collapses both `None` and `""` to `""`). -/
def contentOfType (t : String) (c : Case) : String :=
  String.join ((c.interactions.filter (fun i => i.type == t)).map (fun i => i.body.getD ""))

/-- The call branch of `is_eligible`, applied to the joined PHONE content. -/
def callVerdict (g : Gates) (mode : String) (content : String) : Bool × String × String :=
  if g.CALL.min_transcript ≤ content.length then
    (true, "CALL",
      "Transcript(" ++ toString content.length ++ ") >= " ++
        toString g.CALL.min_transcript ++ " (" ++ mode ++ ")")
  else
    let rescuePoints := callRescuePoints content
    if 100 < content.length ∧ g.CALL.structure_points ≤ rescuePoints then
      (true, "CALL", "Structure rescue (" ++ mode ++ ", points=" ++ toString rescuePoints ++ ")")
    else
      (false, "CALL", "Call too short (" ++ toString content.length ++ ")")

/-- The email branch of `is_eligible`, applied to the joined EMAIL content. -/
def emailVerdict (g : Gates) (mode : String) (content : String) : Bool × String × String :=
  if g.EMAIL.min_chars ≤ content.length then
    (true, "EMAIL",
      "Email(" ++ toString content.length ++ ") >= " ++
        toString g.EMAIL.min_chars ++ " (" ++ mode ++ ")")
  else
    let rescuePoints := emailRescuePoints content
    if 50 < content.length ∧ g.EMAIL.structure_points ≤ rescuePoints then
      (true, "EMAIL", "Structure rescue (" ++ mode ++ ", points=" ++ toString rescuePoints ++ ")")
    else
      (false, "EMAIL", "Email too short (" ++ toString content.length ++ ")")

/-- `Sampler.is_eligible` with the gate dictionary already selected
(the body of the method after the `gates = ...` line). -/
def isEligibleG (g : Gates) (mode : String) (c : Case) : Bool × String × String :=
  if hasPhoneB c then callVerdict g mode (contentOfType "PHONE" c)
  else emailVerdict g mode (contentOfType "EMAIL" c)

/-- `Sampler.is_eligible(case, mode)`: strict gates when `mode == "strict"`,
loose gates otherwise.  Returns `(is_eligible, channel, reason)`. -/
def isEligible (c : Case) (mode : String) : Bool × String × String :=
  isEligibleG (if mode == "strict" then STRICT_GATES else LOOSE_GATES) mode c

/-! ### `Sampler._extract_date` -/

/-- Split a character list at its first occurrence of `u`, if any. -/
def breakAtCh (u : Char) : List Char → Option (List Char × List Char)
  | [] => none
  | a :: as =>
      if a == u then some ([], as)
      else match breakAtCh u as with
        | some (pre, suf) => some (a :: pre, suf)
        | none => none

/-- `s.rsplit("_", 1)` restricted to what `_extract_date` needs: `some
(before, after)` when the string contains an underscore (split at the
last one), `none` when it does not (a one-element split result). -/
def rsplitUnderscore (s : String) : Option (String × String) :=
  match breakAtCh '_' s.data.reverse with
  | some (rsuf, rpre) => some (⟨rpre.reverse⟩, ⟨rsuf.reverse⟩)
  | none => none

/-- Value of an ASCII digit character. -/
def digVal (c : Char) : Nat :=
  c.toNat - 48

/-- The `%d` token of `strptime` matched against the whole remaining
input: two digits whose value is 1..31, or one digit 1..9 (the pattern
`3[01]|[12]\d|0[1-9]|[1-9]`, which must consume everything left). -/
def dayToken : List Char → Option Nat
  | [a] => if a.isDigit ∧ 1 ≤ digVal a then some (digVal a) else none
  | [a, b] =>
      if a.isDigit ∧ b.isDigit ∧ 1 ≤ digVal a * 10 + digVal b ∧ digVal a * 10 + digVal b ≤ 31
        then some (digVal a * 10 + digVal b) else none
  | _ => none

/-- The `%m` token (`1[0-2]|0[1-9]|[1-9]`) tried one digit wide, then `%d`. -/
def monthOneThenDay : List Char → Option (Nat × Nat)
  | [] => none
  | a :: rest =>
      if a.isDigit ∧ 1 ≤ digVal a then (dayToken rest).map (fun dd => (digVal a, dd))
      else none

/-- `%m%d` against the whole remaining input, with the regex's greedy
two-digit month tried first and backtracking to a one-digit month. -/
def monthDayTokens : List Char → Option (Nat × Nat)
  | a :: b :: rest =>
      if a.isDigit ∧ b.isDigit ∧ 1 ≤ digVal a * 10 + digVal b ∧ digVal a * 10 + digVal b ≤ 12
        then match dayToken rest with
          | some dd => some (digVal a * 10 + digVal b, dd)
          | none => monthOneThenDay (a :: b :: rest)
        else monthOneThenDay (a :: b :: rest)
  | other => monthOneThenDay other

/-- `datetime.strptime(s, "%Y%m%d").date()`: four year digits, then
month and day tokens consuming the rest, then the `datetime` constructor's
validity check (year ≥ 1, day within the month).  `none` models the
`ValueError` the caller swallows. -/
def parseYMD (s : String) : Option PyDate :=
  match s.data with
  | a :: b :: c :: d :: rest =>
      if a.isDigit ∧ b.isDigit ∧ c.isDigit ∧ d.isDigit then
        let yv := ((digVal a * 10 + digVal b) * 10 + digVal c) * 10 + digVal d
        match monthDayTokens rest with
        | some (mv, dv) =>
            if 1 ≤ yv ∧ 1 ≤ dv ∧ dv ≤ daysInMonth yv mv then some ⟨yv, mv, dv⟩ else none
        | none => none
      else none
  | _ => none

/-- `Sampler._extract_date`: parse the tail of `case_id` after its last
underscore as `%Y%m%d`; on failure (or no underscore) fall back to the
date of the latest interaction timestamp; `None` for an empty
interaction list. -/
def extractDate (c : Case) : Option PyDate :=
  match rsplitUnderscore c.case_id with
  | some (_, suf) =>
      match parseYMD suf with
      | some d => some d
      | none => (maxTimestamp c.interactions).map (fun t => t.date)
  | none => (maxTimestamp c.interactions).map (fun t => t.date)

/-- The in-range test of `Sampler.split_by_period`:
`case_date and start_date <= case_date <= end_date`. -/
def inPeriodB (sd ed : PyDate) (c : Case) : Bool :=
  match extractDate c with
  | some d => dateLe sd d && dateLe d ed
  | none => false

/-- `Sampler.split_by_period`: the `(in_range, out_of_range)` partition. -/
def splitByPeriod (cases : List Case) (sd ed : PyDate) : List Case × List Case :=
  (cases.filter (inPeriodB sd ed), cases.filter (fun c => ! inPeriodB sd ed c))

/-! ### `Sampler._select_best` and `Sampler.select_samples_phase6` -/

/-- A Python runtime error escaping the sampler (the `TypeError` raised
by comparing a `date` with `None`). -/
inductive PyError where
  | typeError : PyError
deriving DecidableEq, Repr

/-- One per-agent, per-channel selection dict. -/
structure SelectionResult where
  case_ : Option Case
  status : String
  reason : String
  fallback : Option String
deriving DecidableEq, Repr

/-- The chained comparison `start_date <= self._extract_date(c) <= end_date`
of the tier-3 filters: comparing a `date` with `None` raises `TypeError`. -/
def chainInRange (sd ed : PyDate) (x : Option PyDate) : Except PyError Bool :=
  match x with
  | none => .error .typeError
  | some d => .ok (dateLe sd d && dateLe d ed)

/-- A Python list comprehension with a possibly raising condition:
evaluated element by element, aborting at the first error. -/
def filterE (p : Case → Except PyError Bool) : List Case → Except PyError (List Case)
  | [] => .ok []
  | c :: cs => do
      let b ← p c
      let rest ← filterE p cs
      pure (if b then c :: rest else rest)

/-- The channel pool heuristic of `_select_best`, used for both the
current-week and the extended pools: any-PHONE cases for `"PHONE"`,
no-PHONE cases otherwise. -/
def poolFor (channelType : String) (l : List Case) : List Case :=
  if channelType == "PHONE" then l.filter hasPhoneB
  else l.filter (fun c => ! hasPhoneB c)

/-- `Sampler._select_best`.  `random.choice` is abstracted as the
function `pick`, applied only to non-empty candidate lists (theorems that
depend on the choice assume `pick l ∈ l`). -/
def selectBest (pick : List Case → Case) (agent channelType : String)
    (curCases allCases : List Case) (sd ed : PyDate) : Except PyError SelectionResult :=
  let agentCur := curCases.filter (fun c => c.agent == agent)
  let agentCurPool := poolFor channelType agentCur
  match agentCurPool.filter (fun c => (isEligible c "strict").1) with
  | c1 :: r1 =>
      let c := pick (c1 :: r1)
      .ok ⟨some c, "selected", (isEligible c "strict").2.2, none⟩
  | [] =>
    match agentCurPool.filter (fun c => (isEligible c "loose").1) with
    | c2 :: r2 =>
        let c := pick (c2 :: r2)
        .ok ⟨some c, "selected", (isEligible c "loose").2.2, some "loose_gate"⟩
    | [] =>
      let extendedStart := subDays sd 7
      let extendedEnd := addDays ed 7
      let extCases := allCases.filter (fun c => c.agent == agent)
      let extPool0 := poolFor channelType extCases
      do
        let pool1 ← filterE
          (fun c => (chainInRange sd ed (extractDate c)).map (fun b => ! b)) extPool0
        let pool2 ← filterE
          (fun c => chainInRange extendedStart extendedEnd (extractDate c)) pool1
        match pool2.filter (fun c => (isEligible c "strict").1) with
        | c3 :: r3 =>
            let c := pick (c3 :: r3)
            pure ⟨some c, "selected", (isEligible c "strict").2.2, some "date_widening"⟩
        | [] =>
            pure ⟨none, "skipped", "No evaluable candidates in target or extended range.", none⟩

/-- One element of `select_samples_phase6`'s result list. -/
structure Bundle where
  agent : String
  call_case : SelectionResult
  email_case : SelectionResult
deriving DecidableEq, Repr

/-- Python's `<` on strings (lexicographic by code point), as `sorted` uses. -/
def strLe (a b : String) : Bool :=
  ! decide (b < a)

/-- `sorted(list(set(c.agent for c in all_cases if c.agent != "Unknown")))`. -/
def agentRoster (allCases : List Case) : List String :=
  sortStable strLe
    (uniqKeys ((allCases.filter (fun c => decide (c.agent ≠ "Unknown"))).map (fun c => c.agent)))

/-- The sequential per-agent loop, aborting at the first raised error. -/
def bundlesFor (pick : List Case → Case) (curCases allCases : List Case) (sd ed : PyDate) :
    List String → Except PyError (List Bundle)
  | [] => .ok []
  | a :: as => do
      let callSel ← selectBest pick a "PHONE" curCases allCases sd ed
      let emailSel ← selectBest pick a "EMAIL" curCases allCases sd ed
      let rest ← bundlesFor pick curCases allCases sd ed as
      pure (⟨a, callSel, emailSel⟩ :: rest)

/-- `Sampler.select_samples_phase6(cases, all_cases, start_date, end_date)`. -/
def selectSamplesPhase6 (pick : List Case → Case) (curCases allCases : List Case)
    (sd ed : PyDate) : Except PyError (List Bundle) :=
  bundlesFor pick curCases allCases sd ed (agentRoster allCases)

/-! ### Derived views of the gate, used to state the claims -/

/-- The content `is_eligible` gates on: the joined bodies of the
inferred channel (PHONE interactions if any is a call, else EMAIL). -/
def gateContent (c : Case) : String :=
  contentOfType (if hasPhoneB c then "PHONE" else "EMAIL") c

/-- The structure-rescue point count of the inferred channel. -/
def gatePoints (c : Case) : Nat :=
  if hasPhoneB c then callRescuePoints (gateContent c) else emailRescuePoints (gateContent c)

/-- The gate dictionary `mode` selects. -/
def modeGates (mode : String) : Gates :=
  if mode == "strict" then STRICT_GATES else LOOSE_GATES

/-- The volume threshold the inferred channel is compared against. -/
def gateThreshold (g : Gates) (c : Case) : Nat :=
  if hasPhoneB c then g.CALL.min_transcript else g.EMAIL.min_chars

/-- The channel word opening a volume-pass reason. -/
def volumeWord (c : Case) : String :=
  if hasPhoneB c then "Transcript" else "Email"

/-- The fixed prefix of a gate-failure reason. -/
def shortWord (c : Case) : String :=
  if hasPhoneB c then "Call too short (" else "Email too short ("

deriving instance DecidableEq for Except

/-! ### Concrete scenario data -/

/-- A concrete stand-in for `random.choice`: take the head.  It satisfies
the membership contract on every non-empty list. -/
def pickHead (l : List Case) : Case :=
  l.headD (Case.init "X")

/-- Reporting period 2025-01-06 .. 2025-01-12. -/
def sd0 : PyDate := ⟨2025, 1, 6⟩

/-- End of the reporting period. -/
def ed0 : PyDate := ⟨2025, 1, 12⟩

/-- Agent C's only in-period EMAIL case: 50 characters of body, below
the loose floor and with no rescue cues. -/
def inCaseC : Case :=
  ⟨"CASE_C_20250108",
    [⟨"E5", "EMAIL", ⟨⟨2025, 1, 8⟩, 0⟩, "C", none, none,
      some (String.mk (List.replicate 50 'a')), none⟩], "C"⟩

/-- Agent C's 500-character EMAIL case dated 2025-01-22, ten days after
the period end. -/
def outCaseC : Case :=
  ⟨"CASE_C_20250122",
    [⟨"E6", "EMAIL", ⟨⟨2025, 1, 22⟩, 0⟩, "C", none, none,
      some (String.mk (List.replicate 500 'a')), none⟩], "C"⟩

/-- A case with no interactions and a `case_id` with no parseable date
(and no underscore), so `_extract_date` yields `None`. -/
def badCase : Case :=
  ⟨"BADID", [], "A"⟩

/-- A concrete case failing the strict email gate: 51 characters with no
structural cues. -/
def failCase : Case :=
  ⟨"CASE_F_20250107",
    [⟨"E2", "EMAIL", ⟨⟨2025, 1, 7⟩, 0⟩, "F", none, none,
      some (String.mk (List.replicate 51 'a')), none⟩], "F"⟩

/-- Agent W's only EMAIL case, dated 2025-01-17 — five days after the
period end, inside the tier-3 window — with a 400-character body. -/
def outCaseW : Case :=
  ⟨"CASE_W_20250117",
    [⟨"E7", "EMAIL", ⟨⟨2025, 1, 17⟩, 0⟩, "W", none, none,
      some (String.mk (List.replicate 400 'a')), none⟩], "W"⟩

/-- An EMAIL interaction of agent A on 2025-01-07, later in the day. -/
def iA1 : Interaction :=
  ⟨"M1", "EMAIL", ⟨⟨2025, 1, 7⟩, 10⟩, "A", none, none, some "hello", none⟩

/-- A PHONE interaction of agent A on 2025-01-07, earlier in the day. -/
def iA2 : Interaction :=
  ⟨"M2", "PHONE", ⟨⟨2025, 1, 7⟩, 5⟩, "A", none, none, some "call", none⟩

/-- The single case the linker builds from `[iA1, iA2]` (in either input
order): agent A's day 2025-01-07, interactions in timestamp order. -/
def caseA : Case :=
  ⟨"CASE_A_20250107", [iA2, iA1], "A"⟩

/-! ### Theorems -/

theorem pickHead_mem (l : List Case) (h : l ≠ []) : pickHead l ∈ l := by
  cases l with
  | nil => exact absurd rfl h
  | cons a as => exact List.mem_cons_self a as

theorem callVerdict_pass_iff (g : Gates) (mode content : String) :
    (callVerdict g mode content).1 = true ↔
      (g.CALL.min_transcript ≤ content.length ∨
        (100 < content.length ∧ g.CALL.structure_points ≤ callRescuePoints content)) := by
  unfold callVerdict
  dsimp only
  split
  · next h => simp [h]
  · next h =>
    split
    · next h2 => simp [h2]
    · next h2 => simp [h, h2]

theorem emailVerdict_pass_iff (g : Gates) (mode content : String) :
    (emailVerdict g mode content).1 = true ↔
      (g.EMAIL.min_chars ≤ content.length ∨
        (50 < content.length ∧ g.EMAIL.structure_points ≤ emailRescuePoints content)) := by
  unfold emailVerdict
  dsimp only
  split
  · next h => simp [h]
  · next h =>
    split
    · next h2 => simp [h2]
    · next h2 => simp [h, h2]

/-- Claim C3: for every case and both modes, the gate passes iff the
inferred-channel content length meets the mode/channel volume threshold
(CALL 600 strict / 300 loose, EMAIL 350 strict / 150 loose), or it
exceeds the rescue floor (CALL 100, EMAIL 50) and the structural-cue
point count meets the mode/channel minimum (CALL 1/0, EMAIL 2/1). -/
theorem C3_gate_iff (c : Case) :
    ((isEligible c "strict").1 = true ↔
      ((if hasPhoneB c then 600 else 350) ≤ (gateContent c).length ∨
        ((if hasPhoneB c then 100 else 50) < (gateContent c).length ∧
          (if hasPhoneB c then 1 else 2) ≤ gatePoints c))) ∧
    ((isEligible c "loose").1 = true ↔
      ((if hasPhoneB c then 300 else 150) ≤ (gateContent c).length ∨
        ((if hasPhoneB c then 100 else 50) < (gateContent c).length ∧
          (if hasPhoneB c then 0 else 1) ≤ gatePoints c))) := by
  have hs : isEligible c "strict" = isEligibleG STRICT_GATES "strict" c := rfl
  have hl : isEligible c "loose" = isEligibleG LOOSE_GATES "loose" c := rfl
  rw [hs, hl]
  cases h : hasPhoneB c <;>
    simp [isEligibleG, h, gateContent, gatePoints, callVerdict_pass_iff,
      emailVerdict_pass_iff, STRICT_GATES, LOOSE_GATES]

/-- Claim C4: a case passing the strict gate also passes the loose gate. -/
theorem C4_tier_monotone (c : Case) (h : (isEligible c "strict").1 = true) :
    (isEligible c "loose").1 = true := by
  have hs : isEligible c "strict" = isEligibleG STRICT_GATES "strict" c := rfl
  have hl : isEligible c "loose" = isEligibleG LOOSE_GATES "loose" c := rfl
  rw [hs] at h
  rw [hl]
  cases hph : hasPhoneB c <;>
    simp only [isEligibleG, hph, if_true, if_false, Bool.false_eq_true,
      callVerdict_pass_iff, emailVerdict_pass_iff, STRICT_GATES, LOOSE_GATES] at h ⊢ <;>
    omega

set_option maxRecDepth 8192 in
/-- Witness for C4 at a concrete case: a 400-character email passes
strict, hence loose. -/
theorem C4_tier_monotone_witness :
    (isEligible ⟨"CASE_A_20250107",
        [⟨"E9", "EMAIL", ⟨⟨2025, 1, 7⟩, 0⟩, "A", none, none,
          some (String.mk (List.replicate 400 'x')), none⟩], "A"⟩ "strict").1 = true ∧
    (isEligible ⟨"CASE_A_20250107",
        [⟨"E9", "EMAIL", ⟨⟨2025, 1, 7⟩, 0⟩, "A", none, none,
          some (String.mk (List.replicate 400 'x')), none⟩], "A"⟩ "loose").1 = true :=
  ⟨by decide, C4_tier_monotone _ (by decide)⟩

/-- Claim C6 (amended): the reason names the deciding numeric check when
the gate passes — measured length and threshold on a volume pass, the
point count on a rescue pass — but on a failing case it reports only the
measured content length, not the threshold or the rescue count. -/
theorem C6_reason_contents (c : Case) (mode : String) :
    ((isEligible c mode).1 = true ∧
      gateThreshold (modeGates mode) c ≤ (gateContent c).length ∧
      (isEligible c mode).2.2 =
        volumeWord c ++ "(" ++ toString (gateContent c).length ++ ") >= " ++
          toString (gateThreshold (modeGates mode) c) ++ " (" ++ mode ++ ")") ∨
    ((isEligible c mode).1 = true ∧
      (gateContent c).length < gateThreshold (modeGates mode) c ∧
      (isEligible c mode).2.2 =
        "Structure rescue (" ++ mode ++ ", points=" ++ toString (gatePoints c) ++ ")") ∨
    ((isEligible c mode).1 = false ∧
      (isEligible c mode).2.2 = shortWord c ++ toString (gateContent c).length ++ ")") := by
  have hg : isEligible c mode = isEligibleG (modeGates mode) mode c := rfl
  cases hph : hasPhoneB c
  · rw [hg]
    simp only [isEligibleG, hph, Bool.false_eq_true, if_false]
    unfold emailVerdict
    dsimp only
    split
    · next h =>
      exact Or.inl ⟨rfl, by simpa [gateThreshold, hph, gateContent] using h, by
        simp [volumeWord, hph, gateThreshold, gateContent]⟩
    · next h =>
      split
      · next h2 =>
        exact Or.inr (Or.inl ⟨rfl, by simpa [gateThreshold, hph, gateContent] using h, by
          simp [gatePoints, hph, gateContent]⟩)
      · next h2 =>
        exact Or.inr (Or.inr ⟨rfl, by simp [shortWord, hph, gateContent]⟩)
  · rw [hg]
    simp only [isEligibleG, hph, if_true]
    unfold callVerdict
    dsimp only
    split
    · next h =>
      exact Or.inl ⟨rfl, by simpa [gateThreshold, hph, gateContent] using h, by
        simp [volumeWord, hph, gateThreshold, gateContent]⟩
    · next h =>
      split
      · next h2 =>
        exact Or.inr (Or.inl ⟨rfl, by simpa [gateThreshold, hph, gateContent] using h, by
          simp [gatePoints, hph, gateContent]⟩)
      · next h2 =>
        exact Or.inr (Or.inr ⟨rfl, by simp [shortWord, hph, gateContent]⟩)

/-- Counterexample to claim C6 as stated: on a failing case the reason is
`"Email too short (51)"`, which names neither the volume threshold it was
compared against (350) nor any rescue point count. -/
theorem C6_counterexample :
    (isEligible failCase "strict").1 = false ∧
    (isEligible failCase "strict").2.2 = "Email too short (51)" ∧
    containsStr "350" (isEligible failCase "strict").2.2 = false ∧
    containsStr "points" (isEligible failCase "strict").2.2 = false := by
  decide

/-- Claim C10: the gate verdict is a function of the case's phone flag
and its inferred-channel content alone, and the configured
`min_duration` thresholds are never read. -/
theorem C10_gate_noninterference :
    (∀ (c1 c2 : Case) (mode : String), hasPhoneB c1 = hasPhoneB c2 →
      gateContent c1 = gateContent c2 → isEligible c1 mode = isEligible c2 mode) ∧
    (∀ (cg : CallGate) (eg : EmailGate) (md : Nat) (mode : String) (c : Case),
      isEligibleG ⟨⟨cg.min_transcript, cg.structure_points, md⟩, eg⟩ mode c =
        isEligibleG ⟨cg, eg⟩ mode c) := by
  constructor
  · intro c1 c2 mode h1 h2
    unfold isEligible isEligibleG
    unfold gateContent at h2
    rw [← h1] at h2 ⊢
    cases hph : hasPhoneB c1
    · rw [hph] at h2
      simp only [Bool.false_eq_true, if_false] at h2 ⊢
      rw [h2]
    · rw [hph] at h2
      simp only [if_true] at h2 ⊢
      rw [h2]
  · intro cg eg md mode c
    unfold isEligibleG callVerdict emailVerdict
    rfl

/-- Witness for C10: two cases differing in agent, id, timestamp and
subject but agreeing on the phone flag and content get identical
verdicts, and replacing `min_duration` 120 by 77 changes nothing. -/
theorem C10_gate_noninterference_witness :
    isEligible ⟨"CASE_A_20250107",
        [⟨"E3", "EMAIL", ⟨⟨2025, 1, 7⟩, 0⟩, "A", none, some "hello", some "abc", none⟩],
        "A"⟩ "strict" =
      isEligible ⟨"CASE_B_20250301",
        [⟨"E4", "EMAIL", ⟨⟨2025, 3, 1⟩, 9⟩, "B", none, none, some "abc", none⟩], "B"⟩ "strict" ∧
    isEligibleG ⟨⟨600, 1, 77⟩, ⟨350, 2⟩⟩ "strict" failCase =
      isEligibleG STRICT_GATES "strict" failCase :=
  ⟨C10_gate_noninterference.1 _ _ "strict" (by decide) (by decide),
   C10_gate_noninterference.2 ⟨600, 1, 120⟩ ⟨350, 2⟩ 77 "strict" failCase⟩

set_option maxRecDepth 16384 in
/-- Counterexample to claim C1 as stated: on the spec's scenario-3 data
the engine's EMAIL selection for agent C does NOT return
`fallback="date_widening"`. -/
theorem C1_counterexample :
    (selectBest pickHead "C" "EMAIL" [inCaseC] [inCaseC, outCaseC] sd0 ed0).map
        (fun r => r.fallback) ≠ Except.ok (some "date_widening") := by
  decide

set_option maxRecDepth 16384 in
/-- Claim C1 (amended): on that data the out-of-period case is ten days
outside the period, beyond the tier-3 window [start−7, end+7], so the
selection returns `status="skipped"` with no fallback. -/
theorem C1_amended :
    selectBest pickHead "C" "EMAIL" [inCaseC] [inCaseC, outCaseC] sd0 ed0 =
      Except.ok ⟨none, "skipped", "No evaluable candidates in target or extended range.", none⟩ := by
  decide

/-- Claim C2 (code bug): the selection engine is not exception-free.  On
an input containing a case whose date cannot be extracted, the tier-3
filter evaluates `start_date <= None` and raises `TypeError` instead of
treating the case as "no candidate". -/
theorem C2_tier3_raises :
    selectSamplesPhase6 pickHead [] [badCase] sd0 ed0 = Except.error PyError.typeError := by
  decide

/-! ### Helper lemmas on the Except monad and the tier-3 filters -/

theorem exceptBind_ok {ε α β : Type} (x : α) (f : α → Except ε β) :
    (Except.ok x >>= f) = f x :=
  rfl

theorem exceptBind_error {ε α β : Type} (e : ε) (f : α → Except ε β) :
    ((Except.error e : Except ε α) >>= f) = Except.error e :=
  rfl

theorem exceptPure_eq_ok {ε α : Type} (x : α) :
    (pure x : Except ε α) = Except.ok x :=
  rfl

theorem filterE_ok_mem (p : Case → Except PyError Bool) :
    ∀ (l res : List Case), filterE p l = .ok res → ∀ x ∈ res, x ∈ l ∧ p x = .ok true := by
  intro l
  induction l with
  | nil =>
      intro res h x hx
      unfold filterE at h
      cases h
      cases hx
  | cons c cs ih =>
      intro res h x hx
      unfold filterE at h
      cases hp : p c with
      | error e =>
          rw [hp, exceptBind_error] at h
          cases h
      | ok b =>
          rw [hp, exceptBind_ok] at h
          cases hrest : filterE p cs with
          | error e =>
              rw [hrest, exceptBind_error] at h
              cases h
          | ok rest =>
              rw [hrest, exceptBind_ok, exceptPure_eq_ok] at h
              cases h
              cases b with
              | true =>
                  rcases List.mem_cons.mp hx with hxc | hxr
                  · subst hxc
                    exact ⟨List.mem_cons_self _ _, by rw [hp]⟩
                  · rcases ih rest hrest x hxr with ⟨h1, h2⟩
                    exact ⟨List.mem_cons_of_mem _ h1, h2⟩
              | false =>
                  rcases ih rest hrest x hx with ⟨h1, h2⟩
                  exact ⟨List.mem_cons_of_mem _ h1, h2⟩

/-- Every `ok` result of `_select_best` is either a selection carrying a
case or a skip carrying none. -/
theorem selectBest_ok_shape (pick : List Case → Case) (agent channelType : String)
    (cur all : List Case) (sd ed : PyDate) (r : SelectionResult)
    (h : selectBest pick agent channelType cur all sd ed = .ok r) :
    (r.status = "selected" ∧ r.case_ ≠ none) ∨ (r.status = "skipped" ∧ r.case_ = none) := by
  unfold selectBest at h
  dsimp only at h
  split at h
  · cases h
    exact Or.inl ⟨rfl, by simp⟩
  · split at h
    · cases h
      exact Or.inl ⟨rfl, by simp⟩
    · cases hp1 : filterE (fun c =>
          (chainInRange sd ed (extractDate c)).map (fun b => ! b))
          (poolFor channelType (List.filter (fun c => c.agent == agent) all)) with
      | error e =>
          rw [hp1, exceptBind_error] at h
          cases h
      | ok pool1 =>
          rw [hp1, exceptBind_ok] at h
          cases hp2 : filterE (fun c =>
              chainInRange (subDays sd 7) (addDays ed 7) (extractDate c)) pool1 with
          | error e =>
              rw [hp2, exceptBind_error] at h
              cases h
          | ok pool2 =>
              rw [hp2, exceptBind_ok] at h
              split at h
              · rw [exceptPure_eq_ok] at h
                cases h
                exact Or.inl ⟨rfl, by simp⟩
              · rw [exceptPure_eq_ok] at h
                cases h
                exact Or.inr ⟨rfl, rfl⟩

/-- Claim C5: a `date_widening` selection's case has an extractable date
that is strictly outside the inclusive period and inside the window
[start − 7 days, end + 7 days]. -/
theorem C5_date_widening_window (pick : List Case → Case)
    (hpick : ∀ l : List Case, l ≠ [] → pick l ∈ l)
    (agent channelType : String) (cur all : List Case) (sd ed : PyDate)
    (r : SelectionResult)
    (h : selectBest pick agent channelType cur all sd ed = .ok r)
    (hf : r.fallback = some "date_widening") :
    ∃ c d, r.case_ = some c ∧ extractDate c = some d ∧
      (dateLe sd d && dateLe d ed) = false ∧
      dateLe (subDays sd 7) d = true ∧ dateLe d (addDays ed 7) = true := by
  unfold selectBest at h
  dsimp only at h
  split at h
  · cases h
    simp at hf
  · split at h
    · cases h
      simp at hf
    · cases hp1 : filterE (fun c =>
          (chainInRange sd ed (extractDate c)).map (fun b => ! b))
          (poolFor channelType (List.filter (fun c => c.agent == agent) all)) with
      | error e =>
          rw [hp1, exceptBind_error] at h
          cases h
      | ok pool1 =>
          rw [hp1, exceptBind_ok] at h
          cases hp2 : filterE (fun c =>
              chainInRange (subDays sd 7) (addDays ed 7) (extractDate c)) pool1 with
          | error e =>
              rw [hp2, exceptBind_error] at h
              cases h
          | ok pool2 =>
              rw [hp2, exceptBind_ok] at h
              split at h
              case _ c3 r3 heq =>
                rw [exceptPure_eq_ok] at h
                cases h
                have hc : pick (c3 :: r3) ∈ c3 :: r3 := hpick _ (by simp)
                generalize hgen : pick (c3 :: r3) = x at hc ⊢
                rw [← heq] at hc
                have hc2 : x ∈ pool2 := List.mem_of_mem_filter hc
                rcases filterE_ok_mem _ pool1 pool2 hp2 _ hc2 with ⟨hmem1, hchain2⟩
                rcases filterE_ok_mem _ _ pool1 hp1 _ hmem1 with ⟨_, hchain1⟩
                cases hd : extractDate x with
                | none =>
                    rw [hd] at hchain1
                    simp only [chainInRange] at hchain1
                    simp [Except.map] at hchain1
                | some d =>
                    rw [hd] at hchain1 hchain2
                    simp only [chainInRange] at hchain1 hchain2
                    have h2 := Except.ok.inj hchain2
                    refine ⟨x, d, rfl, hd, ?_,
                      ((Bool.and_eq_true _ _).mp h2).1, ((Bool.and_eq_true _ _).mp h2).2⟩
                    cases hval : (dateLe sd d && dateLe d ed) with
                    | false => rfl
                    | true =>
                        rw [hval] at hchain1
                        exact absurd (Except.ok.inj hchain1) (by decide)
              · rw [exceptPure_eq_ok] at h
                cases h
                simp at hf

set_option maxRecDepth 16384 in
/-- Witness for C5: agent W's only EMAIL case sits five days past the
period end; tier 3 selects it with `fallback="date_widening"` and its
date 2025-01-17 is outside [2025-01-06, 2025-01-12] but inside the
widened window [2024-12-30, 2025-01-19]. -/
theorem C5_date_widening_window_witness :
    ∃ c d,
      (SelectionResult.mk (some outCaseW) "selected" "Email(400) >= 350 (strict)"
          (some "date_widening")).case_ = some c ∧
      extractDate c = some d ∧
      (dateLe sd0 d && dateLe d ed0) = false ∧
      dateLe (subDays sd0 7) d = true ∧ dateLe d (addDays ed0 7) = true :=
  C5_date_widening_window pickHead pickHead_mem "W" "EMAIL" [] [outCaseW] sd0 ed0
    ⟨some outCaseW, "selected", "Email(400) >= 350 (strict)", some "date_widening"⟩
    (by decide) rfl

/-! ### Roster and bundle-shape lemmas -/

theorem foldlUniq_mem [DecidableEq α] (l : List α) :
    ∀ (acc : List α) (x : α),
      (x ∈ l.foldl (fun acc k => if k ∈ acc then acc else acc ++ [k]) acc ↔ x ∈ acc ∨ x ∈ l) := by
  induction l with
  | nil => intro acc x; simp
  | cons k ks ih =>
      intro acc x
      simp only [List.foldl_cons]
      rw [ih]
      by_cases hk : k ∈ acc
      · simp only [if_pos hk, List.mem_cons]
        constructor
        · rintro (h | h)
          · exact Or.inl h
          · exact Or.inr (Or.inr h)
        · rintro (h | h | h)
          · exact Or.inl h
          · exact Or.inl (h ▸ hk)
          · exact Or.inr h
      · simp [hk, or_assoc]

theorem foldlUniq_nodup [DecidableEq α] (l : List α) :
    ∀ acc : List α, acc.Nodup →
      (l.foldl (fun acc k => if k ∈ acc then acc else acc ++ [k]) acc).Nodup := by
  induction l with
  | nil => intro acc h; simpa using h
  | cons k ks ih =>
      intro acc hacc
      simp only [List.foldl_cons]
      by_cases hk : k ∈ acc
      · rw [if_pos hk]
        exact ih acc hacc
      · rw [if_neg hk]
        refine ih _ ?_
        rw [List.nodup_append]
        refine ⟨hacc, List.nodup_singleton k, ?_⟩
        intro a ha hb
        rw [List.mem_singleton] at hb
        exact hk (hb ▸ ha)

theorem uniqKeys_mem [DecidableEq α] (l : List α) (x : α) :
    x ∈ uniqKeys l ↔ x ∈ l := by
  unfold uniqKeys
  rw [foldlUniq_mem]
  simp

theorem uniqKeys_nodup [DecidableEq α] (l : List α) : (uniqKeys l).Nodup :=
  foldlUniq_nodup l [] List.nodup_nil

theorem insertSorted_perm (le : α → α → Bool) (a : α) :
    ∀ l : List α, (insertSorted le a l).Perm (a :: l) := by
  intro l
  induction l with
  | nil => exact List.Perm.refl _
  | cons b bs ih =>
      unfold insertSorted
      by_cases h : le a b = true
      · rw [if_pos h]
      · rw [if_neg h]
        exact (List.Perm.cons b ih).trans (List.Perm.swap a b bs)

theorem sortStable_perm (le : α → α → Bool) :
    ∀ l : List α, (sortStable le l).Perm l := by
  intro l
  induction l with
  | nil => exact List.Perm.refl _
  | cons a as ih =>
      unfold sortStable
      exact (insertSorted_perm le a (sortStable le as)).trans (List.Perm.cons a ih)

theorem sortStable_mem (le : α → α → Bool) (l : List α) (x : α) :
    x ∈ sortStable le l ↔ x ∈ l :=
  (sortStable_perm le l).mem_iff

theorem agentRoster_nodup (allCases : List Case) : (agentRoster allCases).Nodup := by
  unfold agentRoster
  exact ((sortStable_perm _ _).nodup_iff).mpr (uniqKeys_nodup _)

theorem bundlesFor_ok (pick : List Case → Case) (cur all : List Case) (sd ed : PyDate) :
    ∀ (agents : List String) (results : List Bundle),
      bundlesFor pick cur all sd ed agents = .ok results →
      results.map (fun b => b.agent) = agents ∧
      ∀ b ∈ results,
        ((b.call_case.status = "selected" ∧ b.call_case.case_ ≠ none) ∨
          (b.call_case.status = "skipped" ∧ b.call_case.case_ = none)) ∧
        ((b.email_case.status = "selected" ∧ b.email_case.case_ ≠ none) ∨
          (b.email_case.status = "skipped" ∧ b.email_case.case_ = none)) := by
  intro agents
  induction agents with
  | nil =>
      intro results h
      unfold bundlesFor at h
      cases h
      exact ⟨rfl, by intro b hb; cases hb⟩
  | cons a as ih =>
      intro results h
      unfold bundlesFor at h
      cases hcall : selectBest pick a "PHONE" cur all sd ed with
      | error e => rw [hcall, exceptBind_error] at h; cases h
      | ok callSel =>
          rw [hcall, exceptBind_ok] at h
          cases hemail : selectBest pick a "EMAIL" cur all sd ed with
          | error e => rw [hemail, exceptBind_error] at h; cases h
          | ok emailSel =>
              rw [hemail, exceptBind_ok] at h
              cases hrest : bundlesFor pick cur all sd ed as with
              | error e => rw [hrest, exceptBind_error] at h; cases h
              | ok rest =>
                  rw [hrest, exceptBind_ok, exceptPure_eq_ok] at h
                  cases h
                  rcases ih rest hrest with ⟨hmap, hshape⟩
                  refine ⟨by simp [hmap], ?_⟩
                  intro b hb
                  rcases List.mem_cons.mp hb with hb1 | hb2
                  · subst hb1
                    exact ⟨selectBest_ok_shape _ _ _ _ _ _ _ _ hcall,
                      selectBest_ok_shape _ _ _ _ _ _ _ _ hemail⟩
                  · exact hshape b hb2

/-- Claim C9: a run yields one bundle per agent, the agents being exactly
the distinct non-Unknown agent names of the full case list in sorted
order (without duplicates), and each bundle's call and email slots hold
exactly one selected case or a skip with no case. -/
theorem C9_bundle_shape (pick : List Case → Case) (cur all : List Case) (sd ed : PyDate)
    (results : List Bundle) (h : selectSamplesPhase6 pick cur all sd ed = .ok results) :
    results.map (fun b => b.agent) = agentRoster all ∧
    (results.map (fun b => b.agent)).Nodup ∧
    ∀ b ∈ results,
      ((b.call_case.status = "selected" ∧ b.call_case.case_ ≠ none) ∨
        (b.call_case.status = "skipped" ∧ b.call_case.case_ = none)) ∧
      ((b.email_case.status = "selected" ∧ b.email_case.case_ ≠ none) ∨
        (b.email_case.status = "skipped" ∧ b.email_case.case_ = none)) := by
  unfold selectSamplesPhase6 at h
  rcases bundlesFor_ok pick cur all sd ed (agentRoster all) results h with ⟨hmap, hshape⟩
  exact ⟨hmap, hmap ▸ agentRoster_nodup all, hshape⟩

set_option maxRecDepth 16384 in
/-- Witness for C9 on a one-agent run: agent F's only case fails every
tier on both channels, so the single bundle carries two skips. -/
theorem C9_bundle_shape_witness :
    ([⟨"F",
        ⟨none, "skipped", "No evaluable candidates in target or extended range.", none⟩,
        ⟨none, "skipped", "No evaluable candidates in target or extended range.", none⟩⟩] :
          List Bundle).map (fun b => b.agent) = agentRoster [failCase] ∧
    (([⟨"F",
        ⟨none, "skipped", "No evaluable candidates in target or extended range.", none⟩,
        ⟨none, "skipped", "No evaluable candidates in target or extended range.", none⟩⟩] :
          List Bundle).map (fun b => b.agent)).Nodup ∧
    ∀ b ∈ ([⟨"F",
        ⟨none, "skipped", "No evaluable candidates in target or extended range.", none⟩,
        ⟨none, "skipped", "No evaluable candidates in target or extended range.", none⟩⟩] :
          List Bundle),
      ((b.call_case.status = "selected" ∧ b.call_case.case_ ≠ none) ∨
        (b.call_case.status = "skipped" ∧ b.call_case.case_ = none)) ∧
      ((b.email_case.status = "selected" ∧ b.email_case.case_ ≠ none) ∨
        (b.email_case.status = "skipped" ∧ b.email_case.case_ = none)) :=
  C9_bundle_shape pickHead [failCase] [failCase] sd0 ed0 _ (by decide)

/-! ### Order lemmas for timestamps and the stable sort -/

theorem dtLe_total (a b : PyDateTime) : dtLe a b = true ∨ dtLe b a = true := by
  rcases a with ⟨⟨ya, ma, da⟩, ta⟩
  rcases b with ⟨⟨yb, mb, db⟩, tb⟩
  simp only [dtLe, dtLt, dateLt, Bool.or_eq_true, Bool.and_eq_true, decide_eq_true_eq,
    PyDateTime.mk.injEq, PyDate.mk.injEq]
  omega

theorem dtLe_trans (a b c : PyDateTime) (h1 : dtLe a b = true) (h2 : dtLe b c = true) :
    dtLe a c = true := by
  rcases a with ⟨⟨ya, ma, da⟩, ta⟩
  rcases b with ⟨⟨yb, mb, db⟩, tb⟩
  rcases c with ⟨⟨yc, mc, dc⟩, tc⟩
  simp only [dtLe, dtLt, dateLt, Bool.or_eq_true, Bool.and_eq_true, decide_eq_true_eq,
    PyDateTime.mk.injEq, PyDate.mk.injEq] at h1 h2 ⊢
  omega

theorem tsLe_total (i j : Interaction) : tsLe i j = true ∨ tsLe j i = true :=
  dtLe_total i.timestamp j.timestamp

theorem tsLe_trans (i j k : Interaction) (h1 : tsLe i j = true) (h2 : tsLe j k = true) :
    tsLe i k = true :=
  dtLe_trans i.timestamp j.timestamp k.timestamp h1 h2

theorem insertSorted_pairwise (le : α → α → Bool)
    (htot : ∀ x y, le x y = true ∨ le y x = true)
    (htrans : ∀ x y z, le x y = true → le y z = true → le x z = true) (a : α) :
    ∀ l : List α, l.Pairwise (fun x y => le x y = true) →
      (insertSorted le a l).Pairwise (fun x y => le x y = true) := by
  intro l
  induction l with
  | nil => intro _; simp [insertSorted]
  | cons b bs ih =>
      intro hl
      rcases List.pairwise_cons.mp hl with ⟨hb, hbs⟩
      unfold insertSorted
      by_cases h : le a b = true
      · rw [if_pos h]
        refine List.pairwise_cons.mpr ⟨?_, hl⟩
        intro x hx
        rcases List.mem_cons.mp hx with hx1 | hx2
        · exact hx1 ▸ h
        · exact htrans a b x h (hb x hx2)
      · rw [if_neg h]
        have hba : le b a = true := by
          rcases htot a b with h1 | h1
          · exact absurd h1 h
          · exact h1
        refine List.pairwise_cons.mpr ⟨?_, ih hbs⟩
        intro x hx
        rcases List.mem_cons.mp ((insertSorted_perm le a bs).mem_iff.mp hx) with hx1 | hx2
        · exact hx1 ▸ hba
        · exact hb x hx2

theorem sortStable_pairwise (le : α → α → Bool)
    (htot : ∀ x y, le x y = true ∨ le y x = true)
    (htrans : ∀ x y z, le x y = true → le y z = true → le x z = true) :
    ∀ l : List α, (sortStable le l).Pairwise (fun x y => le x y = true) := by
  intro l
  induction l with
  | nil => simp [sortStable]
  | cons a as ih =>
      unfold sortStable
      exact insertSorted_pairwise le htot htrans a _ ih

/-! ### Structure of the cases the linker builds -/

theorem foldl_addInteraction_interactions :
    ∀ (xs : List Interaction) (c0 : Case),
      (xs.foldl Case.addInteraction c0).interactions = c0.interactions ++ xs := by
  intro xs
  induction xs with
  | nil => intro c0; simp
  | cons x rest ih =>
      intro c0
      simp only [List.foldl_cons]
      rw [ih]
      simp [Case.addInteraction]

theorem foldl_addInteraction_case_id :
    ∀ (xs : List Interaction) (c0 : Case),
      (xs.foldl Case.addInteraction c0).case_id = c0.case_id := by
  intro xs
  induction xs with
  | nil => intro c0; rfl
  | cons x rest ih =>
      intro c0
      simp only [List.foldl_cons]
      rw [ih]
      rfl

theorem buildCase_interactions (a : String) (d : PyDate) (l : List Interaction) :
    (buildCase a d l).interactions =
      (sortStable tsLe (l.filter (fun i => decide (i.agent = a)))).filter
        (fun i => decide (i.timestamp.date = d)) := by
  unfold buildCase
  rw [foldl_addInteraction_interactions]
  simp [Case.init]

theorem buildCase_case_id (a : String) (d : PyDate) (l : List Interaction) :
    (buildCase a d l).case_id = caseIdOf a d := by
  unfold buildCase
  rw [foldl_addInteraction_case_id]
  rfl

theorem mem_buildCase_iff (a : String) (d : PyDate) (l : List Interaction) (i : Interaction) :
    i ∈ (buildCase a d l).interactions ↔
      i ∈ l ∧ i.agent = a ∧ i.timestamp.date = d := by
  rw [buildCase_interactions]
  constructor
  · intro hmem
    rcases List.mem_filter.mp hmem with ⟨hs, hd⟩
    rw [sortStable_mem] at hs
    rcases List.mem_filter.mp hs with ⟨hl, ha⟩
    exact ⟨hl, by simpa using ha, by simpa using hd⟩
  · rintro ⟨hl, ha, hd⟩
    refine List.mem_filter.mpr ⟨?_, by simpa using hd⟩
    rw [sortStable_mem]
    exact List.mem_filter.mpr ⟨hl, by simpa using ha⟩

theorem mem_linkCases_iff (l : List Interaction) (c : Case) :
    c ∈ linkCases l ↔
      ∃ a d, (∃ i ∈ l, i.agent = a ∧ i.timestamp.date = d) ∧ c = buildCase a d l := by
  unfold linkCases
  dsimp only
  simp only [List.mem_flatMap, List.mem_map]
  constructor
  · rintro ⟨a, ha, d, hdmem, hceq⟩
    refine ⟨a, d, ?_, hceq.symm⟩
    rw [uniqKeys_mem] at hdmem
    obtain ⟨i, hi, hdate⟩ := List.mem_map.mp hdmem
    rw [sortStable_mem] at hi
    obtain ⟨hil, hag⟩ := List.mem_filter.mp hi
    exact ⟨i, hil, by simpa using hag, hdate⟩
  · rintro ⟨a, d, ⟨i, hil, hag, hdate⟩, rfl⟩
    refine ⟨a, ?_, d, ?_, rfl⟩
    · rw [uniqKeys_mem]
      exact List.mem_map.mpr ⟨i, hil, hag⟩
    · rw [uniqKeys_mem]
      refine List.mem_map.mpr ⟨i, ?_, hdate⟩
      rw [sortStable_mem]
      exact List.mem_filter.mpr ⟨hil, by simpa using hag⟩

/-- Claim C7: every linked case is non-empty, its interactions share one
agent and one calendar date, its `case_id` is `CASE_<agent>_<YYYYMMDD>`
for that agent and date, and its interactions are in ascending timestamp
order. -/
theorem C7_linker_invariants (l : List Interaction) (c : Case) (hc : c ∈ linkCases l) :
    c.interactions ≠ [] ∧
    ∃ a d, (∀ i ∈ c.interactions, i.agent = a ∧ i.timestamp.date = d) ∧
      c.case_id = "CASE_" ++ a ++ "_" ++ fmtDate d ∧
      c.interactions.Pairwise (fun i j => tsLe i j = true) := by
  rw [mem_linkCases_iff] at hc
  obtain ⟨a, d, ⟨i, hil, hag, hdate⟩, rfl⟩ := hc
  refine ⟨?_, a, d, ?_, buildCase_case_id a d l, ?_⟩
  · intro hnil
    have hmem : i ∈ (buildCase a d l).interactions :=
      (mem_buildCase_iff a d l i).mpr ⟨hil, hag, hdate⟩
    rw [hnil] at hmem
    cases hmem
  · intro j hj
    have := (mem_buildCase_iff a d l j).mp hj
    exact ⟨this.2.1, this.2.2⟩
  · rw [buildCase_interactions]
    exact (sortStable_pairwise tsLe tsLe_total tsLe_trans _).filter _

/-- Witness for C7 on a two-interaction input: one case, non-empty,
agent A, day 2025-01-07, timestamp-sorted. -/
theorem C7_linker_invariants_witness :
    caseA.interactions ≠ [] ∧
    ∃ a d, (∀ i ∈ caseA.interactions, i.agent = a ∧ i.timestamp.date = d) ∧
      caseA.case_id = "CASE_" ++ a ++ "_" ++ fmtDate d ∧
      caseA.interactions.Pairwise (fun i j => tsLe i j = true) :=
  C7_linker_invariants [iA1, iA2] caseA (by decide)

/-! ### Injectivity of the linker's case ids on valid dates -/

theorem daysInMonth_le_31 (y mo : Nat) : daysInMonth y mo ≤ 31 := by
  unfold daysInMonth
  split
  · split <;> omega
  · split <;> omega

theorem digitCh_inj_mod (u v : Nat) (h : digitCh u = digitCh v) : u % 10 = v % 10 := by
  unfold digitCh at h
  have H : ∀ x, x < 10 → ∀ y, y < 10 → Char.ofNat (48 + x) = Char.ofNat (48 + y) → x = y := by
    decide
  exact H (u % 10) (Nat.mod_lt u (by omega)) (v % 10) (Nat.mod_lt v (by omega)) h

theorem fmtDate_data (x : PyDate) :
    (fmtDate x).data = [digitCh (x.y / 1000), digitCh (x.y / 100), digitCh (x.y / 10),
      digitCh x.y, digitCh (x.m / 10), digitCh x.m, digitCh (x.d / 10), digitCh x.d] :=
  rfl

theorem fmtDate_inj (x x' : PyDate) (hx : x.valid) (hx' : x'.valid)
    (h : (fmtDate x).data = (fmtDate x').data) : x = x' := by
  rw [fmtDate_data, fmtDate_data] at h
  simp only [List.cons.injEq, and_true] at h
  obtain ⟨h1, h2, h3, h4, h5, h6, h7, h8⟩ := h
  have e1 := digitCh_inj_mod _ _ h1
  have e2 := digitCh_inj_mod _ _ h2
  have e3 := digitCh_inj_mod _ _ h3
  have e4 := digitCh_inj_mod _ _ h4
  have e5 := digitCh_inj_mod _ _ h5
  have e6 := digitCh_inj_mod _ _ h6
  have e7 := digitCh_inj_mod _ _ h7
  have e8 := digitCh_inj_mod _ _ h8
  have hd31 : x.d ≤ 31 := hx.2.2.2.2.2.trans (daysInMonth_le_31 _ _)
  have hd31' : x'.d ≤ 31 := hx'.2.2.2.2.2.trans (daysInMonth_le_31 _ _)
  rcases x with ⟨ya, ma, da⟩
  rcases x' with ⟨yb, mb, db⟩
  rcases hx with ⟨hy1, hy2, hm1, hm2, _⟩
  rcases hx' with ⟨hy1', hy2', hm1', hm2', _⟩
  simp only at e1 e2 e3 e4 e5 e6 e7 e8 hd31 hd31' hy2 hm2 hy2' hm2'
  have : ya = yb ∧ ma = mb ∧ da = db := by omega
  simp [PyDate.mk.injEq, this.1, this.2.1, this.2.2]

theorem caseIdOf_inj (a a' : String) (x x' : PyDate) (hx : x.valid) (hx' : x'.valid)
    (h : caseIdOf a x = caseIdOf a' x') : a = a' ∧ x = x' := by
  have hd := congrArg String.data h
  simp only [caseIdOf, String.data_append] at hd
  obtain ⟨hpre, hfmt⟩ := List.append_inj' hd rfl
  refine ⟨?_, fmtDate_inj x x' hx hx' hfmt⟩
  obtain ⟨hpre2, _⟩ := List.append_inj' hpre rfl
  have hdata : a.data = a'.data := by simpa using hpre2
  exact String.ext hdata

/-- The set of case ids produced from `l` is contained in the set
produced from any permutation of `l`. -/
theorem linkCases_ids_mono (l l' : List Interaction) (hp : l.Perm l') (id : String)
    (h : ∃ c ∈ linkCases l, c.case_id = id) : ∃ c ∈ linkCases l', c.case_id = id := by
  obtain ⟨c, hc, hid⟩ := h
  rw [mem_linkCases_iff] at hc
  obtain ⟨a, d, ⟨i, hil, hag, hdate⟩, rfl⟩ := hc
  refine ⟨buildCase a d l', ?_, ?_⟩
  · rw [mem_linkCases_iff]
    exact ⟨a, d, ⟨i, hp.subset hil, hag, hdate⟩, rfl⟩
  · rw [buildCase_case_id] at hid ⊢
    exact hid

/-- Claim C8: linking is order-independent — a permutation of the input
yields the same set of case ids, and for each case id the same set of
member interactions.  (The validity hypothesis records the invariant
that Python `datetime.date` values are always calendar-valid.) -/
theorem C8_linking_order_independent (l l' : List Interaction) (hp : l.Perm l')
    (hv : ∀ i ∈ l, i.timestamp.date.valid) :
    (∀ id, (∃ c ∈ linkCases l, c.case_id = id) ↔ (∃ c ∈ linkCases l', c.case_id = id)) ∧
    (∀ id c c', c ∈ linkCases l → c' ∈ linkCases l' → c.case_id = id → c'.case_id = id →
      ∀ i, i ∈ c.interactions ↔ i ∈ c'.interactions) := by
  constructor
  · intro id
    exact ⟨linkCases_ids_mono l l' hp id, linkCases_ids_mono l' l hp.symm id⟩
  · intro id c c' hc hc' hid hid' i
    rw [mem_linkCases_iff] at hc hc'
    obtain ⟨a, d, ⟨j, hjl, hja, hjd⟩, rfl⟩ := hc
    obtain ⟨a2, d2, ⟨j2, hjl2, hja2, hjd2⟩, rfl⟩ := hc'
    rw [buildCase_case_id] at hid hid'
    have hvd : d.valid := hjd ▸ hv j hjl
    have hvd2 : d2.valid := hjd2 ▸ hv j2 (hp.symm.subset hjl2)
    obtain ⟨rfl, rfl⟩ := caseIdOf_inj a a2 d d2 hvd hvd2 (hid.trans hid'.symm)
    rw [mem_buildCase_iff, mem_buildCase_iff]
    constructor
    · rintro ⟨h1, h2, h3⟩
      exact ⟨hp.subset h1, h2, h3⟩
    · rintro ⟨h1, h2, h3⟩
      exact ⟨hp.symm.subset h1, h2, h3⟩

/-- Witness for C8: the two orderings of agent A's two interactions
produce the same case id. -/
theorem C8_linking_order_independent_witness :
    (∃ c ∈ linkCases [iA1, iA2], c.case_id = "CASE_A_20250107") ↔
    (∃ c ∈ linkCases [iA2, iA1], c.case_id = "CASE_A_20250107") :=
  (C8_linking_order_independent [iA1, iA2] [iA2, iA1]
      (List.Perm.swap iA2 iA1 []) (by decide)).1 "CASE_A_20250107"

end MailReview
